import Mathlib

/-!
Formal model of the sansay_exporter collector (collector.go).

Shallow embedding conventions:
- Go channel emission (`ch <- metric`) becomes an explicit list of emitted
  metrics, in emission order.
- A Go runtime panic is modelled by the `GoR.panic` constructor; a panic
  aborts the remainder of the computation, exactly as in Go.
- Go `error` return values become `Except String`.
- The network effect of `client.Do` is passed in explicitly as a function
  from the built request to a response-or-error.
- `strconv.ParseFloat` appears in the source only through the success or
  failure of the parse; it is modelled by the syntactic recognizer
  `parseFloatOk` below.
-/

namespace Collector

/-- Outcome of a Go computation that may panic at runtime.
`panic` carries the runtime error message; emitted metrics before a panic
are discarded, since a panic aborts the collection cycle. -/
inductive GoR (α : Type) where
  | panic (msg : String) : GoR α
  | ok (val : α) : GoR α
deriving DecidableEq

/-- The Go runtime message for indexing rune 0 of an empty rune slice. -/
def indexOutOfRangeMsg : String := "runtime error: index out of range [0] with length 0"

/-- One `field` element of the wire XML: `name` attribute and text content
(collector.go lines 45-48). A missing `name` attribute is the empty string. -/
structure Field where
  Name : String
  Text : String
deriving DecidableEq

/-- One `row` element: its `field` children (collector.go lines 43-49). -/
structure Row where
  Field : List Field
deriving DecidableEq

/-- One `table` element: `name` attribute and `row` children
(collector.go lines 40-50). -/
structure Table where
  Name : String
  Row : List Row
deriving DecidableEq

/-- The `database` element (collector.go lines 37-51). -/
structure Database where
  Name : String
  Table : List Table
deriving DecidableEq

/-- The parsed `mysqldump` document (collector.go lines 34-52). -/
structure Sansay where
  Database : Database
deriving DecidableEq

/-- The fixed-shape trunk record (collector.go lines 54-66): all eleven
attributes are strings. -/
structure Trunk where
  TrunkId : String
  Alias : String
  Fqdn : String
  NumOrig : String
  NumTerm : String
  Cps : String
  NumPeak : String
  TotalCLZ : String
  NumCLZCps : String
  TotalLimit : String
  CpsLimit : String
deriving DecidableEq

/-- The Go zero value `Trunk\x7b\x7d`: every attribute is the empty string
(collector.go line 103). -/
def Trunk.empty : Trunk := ⟨"", "", "", "", "", "", "", "", "", "", ""⟩

/-- `nme := []rune(name); nme[0] = unicode.ToUpper(nme[0])` (collector.go
lines 212-214 and 247-249). Indexing rune 0 of the empty name panics at
runtime; the field names in play are ASCII, for which `Char.toUpper` agrees
with Go `unicode.ToUpper`. -/
def capitalize (name : String) : GoR String :=
  match name.data with
  | [] => GoR.panic indexOutOfRangeMsg
  | c :: cs => GoR.ok (String.mk (c.toUpper :: cs))

/-- `rv.FieldByName(name)` followed by `fv.SetString(value)` on a `Trunk`
(collector.go lines 224-241). All eleven `Trunk` attributes are exported
strings, so the `CanSet` and `Kind() != String` branches of the source are
unreachable for this record shape; an unmatched name yields the
`not a field name` error of line 226. -/
def assignCap (t : Trunk) (n v : String) : Except String Trunk :=
  match n with
  | "TrunkId" => .ok { t with TrunkId := v }
  | "Alias" => .ok { t with Alias := v }
  | "Fqdn" => .ok { t with Fqdn := v }
  | "NumOrig" => .ok { t with NumOrig := v }
  | "NumTerm" => .ok { t with NumTerm := v }
  | "Cps" => .ok { t with Cps := v }
  | "NumPeak" => .ok { t with NumPeak := v }
  | "TotalCLZ" => .ok { t with TotalCLZ := v }
  | "NumCLZCps" => .ok { t with NumCLZCps := v }
  | "TotalLimit" => .ok { t with TotalLimit := v }
  | "CpsLimit" => .ok { t with CpsLimit := v }
  | _ => .error ("not a field name: " ++ n)

/-- `setField` (collector.go lines 210-242): capitalize the first rune of
the name, then assign the matching string attribute. The source requires
`v` to be a pointer to a struct; the embedding fixes the pointee type to
`Trunk`, where that check always passes. -/
def setField (t : Trunk) (name value : String) : GoR (Except String Trunk) :=
  match capitalize name with
  | .panic m => .panic m
  | .ok n => .ok (assignCap t n value)

/-- `rv.FieldByName(name)` followed by `fv.String()` on a `Trunk`
(collector.go lines 259-269). -/
def readCap (t : Trunk) (n : String) : Except String String :=
  match n with
  | "TrunkId" => .ok t.TrunkId
  | "Alias" => .ok t.Alias
  | "Fqdn" => .ok t.Fqdn
  | "NumOrig" => .ok t.NumOrig
  | "NumTerm" => .ok t.NumTerm
  | "Cps" => .ok t.Cps
  | "NumPeak" => .ok t.NumPeak
  | "TotalCLZ" => .ok t.TotalCLZ
  | "NumCLZCps" => .ok t.NumCLZCps
  | "TotalLimit" => .ok t.TotalLimit
  | "CpsLimit" => .ok t.CpsLimit
  | _ => .error ("not a field name: " ++ n)

/-- `getField` (collector.go lines 245-269): capitalize the first rune of
the name, then read the matching string attribute. -/
def getField (t : Trunk) (name : String) : GoR (Except String String) :=
  match capitalize name with
  | .panic m => .panic m
  | .ok n => .ok (readCap t n)

/-- State-passing form of `getField`: the source takes the record by
pointer, so this pairs the returned value with the record as it stands
after the call. The source body (collector.go lines 245-269) performs no
assignment to the record. -/
def getFieldSt (t : Trunk) (name : String) : GoR (Except String String × Trunk) :=
  match capitalize name with
  | .panic m => .panic m
  | .ok n => .ok (readCap t n, t)

/-- Consume a leading `+` or `-` sign, if any. -/
def stripSign : List Char → List Char
  | [] => []
  | c :: rest => if c == '+' || c == '-' then rest else c :: rest

/-- Count leading decimal digits; return the count and the remainder. -/
def spanDigits : List Char → Nat × List Char
  | [] => (0, [])
  | c :: cs =>
    if c.isDigit then
      let r := spanDigits cs
      (r.1 + 1, r.2)
    else (0, c :: cs)

/-- Hexadecimal digit test. -/
def isHexDig (c : Char) : Bool :=
  c.isDigit || ('a' ≤ c && c ≤ 'f') || ('A' ≤ c && c ≤ 'F')

/-- Count leading hexadecimal digits; return the count and the remainder. -/
def spanHexDigits : List Char → Nat × List Char
  | [] => (0, [])
  | c :: cs =>
    if isHexDig c then
      let r := spanHexDigits cs
      (r.1 + 1, r.2)
    else (0, c :: cs)

/-- One or more decimal digits consuming the whole input. -/
def digitsToEnd (l : List Char) : Bool :=
  let r := spanDigits l
  decide (r.1 ≠ 0) && r.2.isEmpty

/-- Decimal mantissa: digits with at most one point, at least one digit;
returns the remainder on success. -/
def decMantissa (l : List Char) : Option (List Char) :=
  let r1 := spanDigits l
  match r1.2 with
  | '.' :: rest =>
    let r2 := spanDigits rest
    if r1.1 + r2.1 = 0 then none else some r2.2
  | _ => if r1.1 = 0 then none else some r1.2

/-- Hexadecimal mantissa: hex digits with at most one point, at least one
digit; returns the remainder on success. -/
def hexMantissa (l : List Char) : Option (List Char) :=
  let r1 := spanHexDigits l
  match r1.2 with
  | '.' :: rest =>
    let r2 := spanHexDigits rest
    if r1.1 + r2.1 = 0 then none else some r2.2
  | _ => if r1.1 = 0 then none else some r1.2

/-- Optional decimal exponent: empty, or `e`/`E`, optional sign, and one or
more digits consuming the rest. -/
def expPartOk : List Char → Bool
  | [] => true
  | c :: rest => (c == 'e' || c == 'E') && digitsToEnd (stripSign rest)

/-- Case-insensitive match of the whole input against a lowercase pattern. -/
def eqNoCase : List Char → List Char → Bool
  | [], [] => true
  | c :: cs, d :: ds => (c.toLower == d) && eqNoCase cs ds
  | _, _ => false

/-- `inf` or `infinity`, case-insensitive. -/
def infWord (l : List Char) : Bool :=
  eqNoCase l ("inf".data) || eqNoCase l ("infinity".data)

/-- The special values accepted by `strconv.ParseFloat`: optionally signed
`inf`/`infinity`, and unsigned `nan`, all case-insensitive. -/
def specialOk (l : List Char) : Bool :=
  match l with
  | [] => false
  | c :: rest =>
    if c == '+' || c == '-' then infWord rest
    else if c == 'n' || c == 'N' then eqNoCase l ("nan".data)
    else infWord l

/-- Decimal float body after the sign: mantissa then optional exponent. -/
def decFloatOk (l : List Char) : Bool :=
  match decMantissa l with
  | none => false
  | some rest => expPartOk rest

/-- Hexadecimal float body after `0x`: hex mantissa then a mandatory `p`
exponent, as Go requires. -/
def hexFloatOk (l : List Char) : Bool :=
  match hexMantissa l with
  | none => false
  | some rest =>
    match rest with
    | c :: r2 => (c == 'p' || c == 'P') && digitsToEnd (stripSign r2)
    | [] => false

/-- Whether `strconv.ParseFloat(s, 64)` succeeds (collector.go lines 170
and 196). This models the syntax Go accepts: optional sign, decimal or
`0x` hexadecimal mantissa with optional/mandatory exponent, and the
special words `inf`, `infinity`, `nan`. Underscore digit separators and
the out-of-range error, both irrelevant to every claim, are not modelled. -/
def parseFloatOk (s : String) : Bool :=
  specialOk s.data ||
    (let l := stripSign s.data
     match l with
     | '0' :: c :: rest =>
       if c == 'x' || c == 'X' then hexFloatOk rest
       else decFloatOk ('0' :: c :: rest)
     | _ => decFloatOk l)

/-- A Prometheus metric as observed on the collection channel: either a
gauge built by `MustNewConstMetric` (name, help, label names, label
values, and the raw string whose parse produced the value) or an invalid
metric built by `NewInvalidMetric` (name, help, error text). -/
inductive Metric where
  | gauge (name : String) (help : String) (labelNames : List String)
      (labelValues : List String) (value : String) : Metric
  | invalid (name : String) (help : String) (err : String) : Metric
deriving DecidableEq

/-- Gauge test. -/
def Metric.isGauge : Metric → Bool
  | .gauge _ _ _ _ _ => true
  | .invalid _ _ _ => false

/-- Invalid-metric test. -/
def Metric.isInvalid : Metric → Bool
  | .gauge _ _ _ _ _ => false
  | .invalid _ _ _ => true

/-- The invalid metric every error path emits:
`NewInvalidMetric(NewDesc("sansay_error", "Error scraping target", nil, nil), err)`
(collector.go lines 85, 107, 113, 193, 198). -/
def errMetric (err : String) : Metric :=
  Metric.invalid "sansay_error" "Error scraping target" err

/-- The error text of a failed `strconv.ParseFloat` on `value`
(message shape of the Go strconv error). -/
def floatParseErr (value : String) : String :=
  "strconv.ParseFloat: parsing " ++ value ++ ": invalid syntax"

/-- Help string of the scrape-duration gauge (collector.go line 121). -/
def durationHelp : String := "Total sansay time scrape took (walk and processing)."

/-- The scrape-duration gauge (collector.go lines 120-123); `d` is the
measured wall-clock duration, an input of the model. -/
def durationGauge (d : String) : Metric :=
  Metric.gauge "sansay_scrape_duration_seconds" durationHelp [] [] d

/-- Run a panic-capable emission step over a list and concatenate the
emitted metrics; a panic aborts the remaining iterations, as a Go panic
aborts the enclosing loop. -/
def goFlatMap {α : Type} (f : α → GoR (List Metric)) : List α → GoR (List Metric)
  | [] => .ok []
  | a :: as =>
    match f a with
    | .panic m => .panic m
    | .ok ms =>
      match goFlatMap f as with
      | .panic m => .panic m
      | .ok ms2 => .ok (ms ++ ms2)

/-- The trunk-row assembly loop (collector.go lines 103-109): feed every
field of the row through `setField`; a field error emits one `sansay_error`
invalid metric and continues with the record unchanged. Returns the
assembled record together with the metrics emitted during assembly. -/
def assembleTrunk (t : Trunk) : List Field → GoR (Trunk × List Metric)
  | [] => .ok (t, [])
  | f :: fs =>
    match setField t f.Name f.Text with
    | .panic m => .panic m
    | .ok (.error e) =>
      match assembleTrunk t fs with
      | .panic m => .panic m
      | .ok (t2, ms) => .ok (t2, errMetric e :: ms)
    | .ok (.ok t1) => assembleTrunk t1 fs

/-- `addMetric` (collector.go lines 168-179): parse the value and emit one
unlabeled gauge `sansay_<name>` with empty help. The source returns the
parse error to its caller, which discards it (line 97), so a failed parse
emits nothing. -/
def addMetric (name value : String) : List Metric :=
  if parseFloatOk value then
    [Metric.gauge ("sansay_" ++ name) "" [] [] value]
  else []

/-- One `system_stat` field (collector.go lines 93-98): the two
high-availability state fields are skipped by exact name; every other
field goes through `addMetric`. -/
def processSystemField (f : Field) : List Metric :=
  match f.Name with
  | "ha_pre_state" => []
  | "ha_current_state" => []
  | _ => addMetric f.Name f.Text

/-- The loop variable of `addTrunkMetrics` (collector.go lines 181-188). -/
def counterList : List String :=
  ["NumOrig", "NumTerm", "Cps", "NumPeak", "TotalCLZ", "NumCLZCps",
   "TotalLimit", "CpsLimit"]

/-- `strings.ToLower` on the counter names in play, all ASCII. -/
def lowerStr (s : String) : String := String.mk (s.data.map Char.toLower)

/-- One iteration of the `addTrunkMetrics` loop (collector.go lines
189-204): read the counter through `getField`, parse it, and emit either
the labeled trunk gauge or one `sansay_error` invalid metric. -/
def counterStep (t : Trunk) (metric : String) : GoR (List Metric) :=
  let metricName := "sansay_trunk_" ++ lowerStr metric
  match getField t metric with
  | .panic m => .panic m
  | .ok (.error e) => .ok [errMetric e]
  | .ok (.ok value) =>
    if parseFloatOk value then
      .ok [Metric.gauge metricName "" ["trunkgroup", "alias"]
             [t.TrunkId, t.Alias] value]
    else
      .ok [errMetric (floatParseErr value)]

/-- `addTrunkMetrics` (collector.go lines 180-207). The source's `error`
return value is always `nil` (failures are emitted inside the loop and the
loop continues), so the caller's error branch at lines 112-114 never
fires and the embedding returns the emitted metrics alone. -/
def addTrunkMetrics (t : Trunk) : GoR (List Metric) :=
  goFlatMap (counterStep t) counterList

/-- One `XBResourceRealTimeStatList` row (collector.go lines 102-116):
assemble the trunk record from the row's fields, then emit the trunk
metrics only when the assembled `Fqdn` equals `"Group"`. -/
def processTrunkRow (row : Row) : GoR (List Metric) :=
  match assembleTrunk Trunk.empty row.Field with
  | .panic m => .panic m
  | .ok (t, ms) =>
    if t.Fqdn = "Group" then
      match addTrunkMetrics t with
      | .panic m => .panic m
      | .ok ms2 => .ok (ms ++ ms2)
    else .ok ms

/-- The per-table dispatch of `Collect` (collector.go lines 88-118):
`system_stat` rows go field by field through `processSystemField`,
`XBResourceRealTimeStatList` rows through `processTrunkRow`, and every
other table emits nothing. -/
def processTable (tbl : Table) : GoR (List Metric) :=
  match tbl.Name with
  | "system_stat" =>
    .ok (tbl.Row.flatMap (fun r => r.Field.flatMap processSystemField))
  | "XBResourceRealTimeStatList" => goFlatMap processTrunkRow tbl.Row
  | _ => .ok []

/-- `Collect` (collector.go lines 80-124). The outcome of
`ScrapeTarget` (fetch plus XML parse) is the explicit input `scraped`; on
failure, exactly one `sansay_error` invalid metric is emitted and the
cycle ends. On success the tables are projected and the scrape-duration
gauge, whose measured value `d` is an input of the model, is appended. -/
def collect (scraped : Except String Sansay) (d : String) : GoR (List Metric) :=
  match scraped with
  | .error e => .ok [errMetric e]
  | .ok sansay =>
    match goFlatMap processTable sansay.Database.Table with
    | .panic m => .panic m
    | .ok ms => .ok (ms ++ [durationGauge d])

/-- `strings.HasPrefix s pre`. -/
def hasPrefixStr (s pre : String) : Bool := pre.data.isPrefixOf s.data

/-- Target normalization of `ScrapeTarget` (collector.go lines 129-131):
a target that starts with neither `http://` nor `https://` gets `http://`
prepended. -/
def normalizeTarget (target : String) : String :=
  if !(hasPrefixStr target ("http://")) && !(hasPrefixStr target ("https://")) then
    "http://" ++ target
  else target

instance {ε α : Type} [DecidableEq ε] [DecidableEq α] : DecidableEq (Except ε α) := by
  intro a b
  cases a <;> cases b
  case error.error e f =>
    exact if h : e = f then isTrue (by rw [h]) else isFalse (by intro c; cases c; exact h rfl)
  case error.ok e x => exact isFalse (by intro c; cases c)
  case ok.error x e => exact isFalse (by intro c; cases c)
  case ok.ok x y =>
    exact if h : x = y then isTrue (by rw [h]) else isFalse (by intro c; cases c; exact h rfl)

/-- An HTTP response as `ScrapeTarget` observes it: the status code and
the outcome of reading the body (`ioutil.ReadAll` may fail). -/
structure HttpResponse where
  StatusCode : Int
  Body : Except String String
deriving DecidableEq

/-- The GET request `ScrapeTarget` builds (collector.go lines 139-145):
method, URL, and the Basic-auth credentials set on it. -/
structure HttpRequest where
  Method : String
  Url : String
  BasicAuthUser : String
  BasicAuthPass : String
deriving DecidableEq

/-- `ScrapeTarget` (collector.go lines 126-166). The stdlib effects are
explicit inputs: `urlParse` models `url.Parse` (line 133; `NewRequest` at
line 139 reparses the same URL, so a separate failure point would be
redundant), `parseXml` models `xml.Unmarshal` (line 160), and `doRequest`
models `client.Do` (line 146). Returns the result together with the log
lines the source writes, since the response status code is only ever
logged (line 152). -/
def scrapeTarget (urlParse : String → Except String Unit)
    (parseXml : String → Except String Sansay)
    (doRequest : HttpRequest → Except String HttpResponse)
    (target username password : String) :
    Except String Sansay × List String :=
  let target := normalizeTarget target
  match urlParse target with
  | .error e => (.error e, ["Could not parse target URL: " ++ e])
  | .ok _ =>
    let request : HttpRequest := ⟨"GET", target, username, password⟩
    match doRequest request with
    | .error e => (.error e, ["Error for HTTP request: " ++ e])
    | .ok resp =>
      let statusLog := "Received HTTP response, status_code " ++ toString resp.StatusCode
      match resp.Body with
      | .error e => (.error e, [statusLog, "Failed to read HTTP response body: " ++ e])
      | .ok body =>
        match parseXml body with
        | .error e => (.error e, [statusLog, "Error parsing XML: " ++ e])
        | .ok sansay => (.ok sansay, [statusLog])

/-- Written from the spec's words, for comparison with `normalizeTarget`:
a target "has a scheme" when it starts with a URI scheme in the sense of
RFC 3986, a letter followed by letters, digits, `+`, `-` or `.` up to a
colon. -/
def schemeTail : List Char → Bool
  | [] => false
  | c :: rest =>
    if c == ':' then true
    else (c.isAlphanum || c == '+' || c == '-' || c == '.') && schemeTail rest

/-- Written from the spec's words: whether the target string already has a
URI scheme. -/
def hasUrlScheme (s : String) : Bool :=
  match s.data with
  | [] => false
  | c :: rest => c.isAlpha && schemeTail rest

/-- The eight counters of a trunk record, paired as (lower-cased wire
name, attribute value), in the emission order of `addTrunkMetrics`. -/
def counterPairs (t : Trunk) : List (String × String) :=
  [("numorig", t.NumOrig), ("numterm", t.NumTerm), ("cps", t.Cps),
   ("numpeak", t.NumPeak), ("totalclz", t.TotalCLZ), ("numclzcps", t.NumCLZCps),
   ("totallimit", t.TotalLimit), ("cpslimit", t.CpsLimit)]

/-- The metrics one counter of a qualifying trunk row contributes: the
labeled gauge when the value parses, one `sansay_error` invalid metric
otherwise. -/
def emitCounter (t : Trunk) (p : String × String) : List Metric :=
  if parseFloatOk p.2 then
    [Metric.gauge ("sansay_trunk_" ++ p.1) ("") (["trunkgroup", "alias"])
       ([t.TrunkId, t.Alias]) p.2]
  else [errMetric (floatParseErr p.2)]

/-- Whether a metric is the scrape-duration gauge of collector.go lines
120-123, identified by its name and help string. -/
def isDurationGauge (m : Metric) : Bool :=
  match m with
  | .gauge n h _ _ _ => n == "sansay_scrape_duration_seconds" && h == durationHelp
  | .invalid _ _ _ => false

/-- The eleven attributes of the `Trunk` record, enumerated. -/
inductive TrunkAttr where
  | trunkId | aliasAttr | fqdn | numOrig | numTerm | cps | numPeak
  | totalCLZ | numCLZCps | totalLimit | cpsLimit
deriving DecidableEq

/-- The exported Go name of a `Trunk` attribute. -/
def attrName : TrunkAttr → String
  | .trunkId => "TrunkId"
  | .aliasAttr => "Alias"
  | .fqdn => "Fqdn"
  | .numOrig => "NumOrig"
  | .numTerm => "NumTerm"
  | .cps => "Cps"
  | .numPeak => "NumPeak"
  | .totalCLZ => "TotalCLZ"
  | .numCLZCps => "NumCLZCps"
  | .totalLimit => "TotalLimit"
  | .cpsLimit => "CpsLimit"

/-- Read one attribute of a `Trunk` record. -/
def getAttr (t : Trunk) : TrunkAttr → String
  | .trunkId => t.TrunkId
  | .aliasAttr => t.Alias
  | .fqdn => t.Fqdn
  | .numOrig => t.NumOrig
  | .numTerm => t.NumTerm
  | .cps => t.Cps
  | .numPeak => t.NumPeak
  | .totalCLZ => t.TotalCLZ
  | .numCLZCps => t.NumCLZCps
  | .totalLimit => t.TotalLimit
  | .cpsLimit => t.CpsLimit

/-- The body part of a `client.Do` outcome, forgetting the status code. -/
def respBody : Except String HttpResponse → Except String (Except String String)
  | .error e => .error e
  | .ok r => .ok r.Body

/-- An `if` over two `GoR.ok` results is the `GoR.ok` of the `if`. -/
lemma goRIf (b : Bool) (x y : List Metric) :
    (if b then GoR.ok x else GoR.ok y) = GoR.ok (if b then x else y) := by
  cases b <;> rfl

/-- C3: whenever the fetch or the XML parse of a collection cycle fails,
`collect` emits exactly one `sansay_error` invalid metric carrying the
error and nothing else for that cycle — in particular no gauge and no
`sansay_scrape_duration_seconds` duration gauge. -/
theorem C3_cycle_fatal_error (e d : String) :
    collect (.error e) d = .ok [errMetric e]
  ∧ Metric.isGauge (errMetric e) = false
  ∧ isDurationGauge (errMetric e) = false :=
  ⟨rfl, rfl, rfl⟩

/-- C4: the claim says `setField` and `getField` return a field error
rather than crashing for every field name, including the empty one the
parser produces for a field element with no name attribute. Evaluated at
the empty name, both functions instead panic while indexing rune 0 of the
empty rune slice; a nonempty unknown name does produce the per-field
error the claim describes. -/
theorem C4_empty_field_name_panics :
    setField Trunk.empty ("") ("x") = .panic indexOutOfRangeMsg
  ∧ getField Trunk.empty ("") = .panic indexOutOfRangeMsg
  ∧ setField Trunk.empty ("bogus") ("x")
      = .ok (.error ("not a field name: Bogus"))
  ∧ getField Trunk.empty ("bogus")
      = .ok (.error ("not a field name: Bogus")) := by
  refine ⟨rfl, rfl, ?_, ?_⟩ <;> decide

/-- C7: a table whose name is neither `system_stat` nor
`XBResourceRealTimeStatList` contributes no metrics and no error markers,
whatever its rows and fields contain. -/
theorem C7_unknown_table_skipped (tbl : Table)
    (h1 : tbl.Name ≠ "system_stat")
    (h2 : tbl.Name ≠ "XBResourceRealTimeStatList") :
    processTable tbl = .ok [] := by
  unfold processTable
  split
  next hh => exact absurd hh h1
  next hh => exact absurd hh h2
  next => rfl

/-- Witness for C7 at a concrete table with a nonempty numeric row. -/
theorem C7_witness :
    processTable ⟨"media_server_stat", [⟨[⟨"cpu", "3.5"⟩]⟩]⟩ = .ok [] :=
  C7_unknown_table_skipped ⟨"media_server_stat", [⟨[⟨"cpu", "3.5"⟩]⟩]⟩
    (by decide) (by decide)

/-- C8: the result of `ScrapeTarget` does not depend on the HTTP status
code. Two network behaviors whose responses agree on everything except
the status code yield equal results, and any response with a readable
body proceeds to XML parsing no matter its status code. -/
theorem C8_status_code_ignored
    (urlParse : String → Except String Unit)
    (parseXml : String → Except String Sansay)
    (net1 net2 : HttpRequest → Except String HttpResponse)
    (target username password : String)
    (h : ∀ req, respBody (net1 req) = respBody (net2 req)) :
    ((scrapeTarget urlParse parseXml net1 target username password).1
      = (scrapeTarget urlParse parseXml net2 target username password).1)
  ∧ (∀ (code : Int) (body : String),
      urlParse (normalizeTarget target) = .ok () →
      (scrapeTarget urlParse parseXml (fun _ => .ok ⟨code, .ok body⟩)
          target username password).1
        = parseXml body) := by
  constructor
  · have hr := h ⟨"GET", normalizeTarget target, username, password⟩
    simp only [scrapeTarget]
    cases hu : urlParse (normalizeTarget target) with
    | error e => rfl
    | ok u =>
      cases h1 : net1 ⟨"GET", normalizeTarget target, username, password⟩ with
      | error e =>
        cases h2 : net2 ⟨"GET", normalizeTarget target, username, password⟩ with
        | error e2 =>
          rw [h1, h2] at hr
          simp only [respBody, Except.error.injEq] at hr
          rw [hr]
        | ok r2 =>
          rw [h1, h2] at hr
          simp [respBody] at hr
      | ok r1 =>
        cases h2 : net2 ⟨"GET", normalizeTarget target, username, password⟩ with
        | error e2 =>
          rw [h1, h2] at hr
          simp [respBody] at hr
        | ok r2 =>
          rw [h1, h2] at hr
          simp only [respBody, Except.ok.injEq] at hr
          dsimp only
          rw [hr]
          cases hb : r2.Body with
          | error e => rfl
          | ok body =>
            dsimp only
            cases hp : parseXml body <;> rfl
  · intro code body hu
    simp only [scrapeTarget]
    rw [hu]
    cases hp : parseXml body <;> rfl

/-- Witness for C8: responses with status 200 and 500 and the same body
produce the same result. -/
theorem C8_witness :
    (scrapeTarget (fun _ => .ok ()) (fun s => .error s)
        (fun _ => .ok ⟨200, .ok ("<mysqldump/>")⟩) ("h") ("u") ("p")).1
  = (scrapeTarget (fun _ => .ok ()) (fun s => .error s)
        (fun _ => .ok ⟨500, .ok ("<mysqldump/>")⟩) ("h") ("u") ("p")).1 :=
  (C8_status_code_ignored (fun _ => .ok ()) (fun s => .error s)
      (fun _ => .ok ⟨200, .ok ("<mysqldump/>")⟩)
      (fun _ => .ok ⟨500, .ok ("<mysqldump/>")⟩)
      ("h") ("u") ("p") (fun _ => rfl)).1

/-- Counterexample for C9: `ftp://example.com` already has a URI scheme,
yet the fetcher does not use it unchanged — it prepends `http://`,
because the source tests only for the literal `http://` and `https://`
prefixes. -/
theorem C9_counterexample :
    hasUrlScheme ("ftp://example.com") = true
  ∧ normalizeTarget ("ftp://example.com") ≠ "ftp://example.com" := by
  decide

/-- C9 as amended: a target that starts with neither `http://` nor
`https://` gets `http://` prepended, and a target that starts with one of
those two literal prefixes is used unchanged. -/
theorem C9_scheme_normalization (t : String) :
    (hasPrefixStr t ("http://") = false → hasPrefixStr t ("https://") = false →
        normalizeTarget t = "http://" ++ t)
  ∧ (hasPrefixStr t ("http://") = true ∨ hasPrefixStr t ("https://") = true →
        normalizeTarget t = t) := by
  constructor
  · intro h1 h2
    simp [normalizeTarget, h1, h2]
  · intro h
    rcases h with h | h <;> simp [normalizeTarget, h]

/-- Witness for C9: a bare IP address gets the `http://` prefix; an
`https://` target is used unchanged. -/
theorem C9_witness :
    normalizeTarget ("1.2.3.4") = "http://" ++ "1.2.3.4"
  ∧ normalizeTarget ("https://h") = "https://h" :=
  ⟨(C9_scheme_normalization ("1.2.3.4")).1 (by decide) (by decide),
   (C9_scheme_normalization ("https://h")).2 (Or.inr (by decide))⟩

/-- Every metric emitted for a `system_stat` field is a gauge, never an
invalid metric: the parse error of `addMetric` is returned to a caller
that discards it. -/
lemma processSystemField_invalid_free (f : Field) :
    ∀ m ∈ processSystemField f, Metric.isInvalid m = false := by
  intro m hm
  unfold processSystemField at hm
  split at hm
  · simp at hm
  · simp at hm
  · unfold addMetric at hm
    split at hm
    · simp at hm
      subst hm
      rfl
    · simp at hm

/-- C2: for every `system_stat` table, fields named exactly `ha_pre_state`
or `ha_current_state` never produce a metric; every other field whose text
parses as a 64-bit float produces exactly one unlabeled gauge named
`sansay_<field name>`; a field whose text fails to parse is silently
dropped, emitting neither a gauge nor an error marker. -/
theorem C2_system_stat_projection (tbl : Table) (h : tbl.Name = "system_stat") :
    (processTable tbl
        = .ok (tbl.Row.flatMap (fun r => r.Field.flatMap processSystemField)))
  ∧ (∀ f : Field,
        ((f.Name = "ha_pre_state" ∨ f.Name = "ha_current_state") →
            processSystemField f = [])
      ∧ (f.Name ≠ "ha_pre_state" → f.Name ≠ "ha_current_state" →
            parseFloatOk f.Text = true →
            processSystemField f
              = [Metric.gauge ("sansay_" ++ f.Name) ("") [] [] f.Text])
      ∧ (parseFloatOk f.Text = false → processSystemField f = []))
  ∧ (∀ m ∈ tbl.Row.flatMap (fun r => r.Field.flatMap processSystemField),
        Metric.isInvalid m = false) := by
  refine ⟨?_, ?_, ?_⟩
  · unfold processTable
    rw [h]
    rfl
  · intro f
    refine ⟨?_, ?_, ?_⟩
    · rintro (h1 | h1) <;> simp [processSystemField, h1]
    · intro h1 h2 hp
      unfold processSystemField
      split
      next hh => exact absurd hh h1
      next hh => exact absurd hh h2
      next => simp [addMetric, hp]
    · intro hp
      unfold processSystemField
      split
      next => rfl
      next => rfl
      next => simp [addMetric, hp]
  · intro m hm
    simp only [List.mem_flatMap] at hm
    obtain ⟨r, _, f, _, hmf⟩ := hm
    exact processSystemField_invalid_free f m hmf

/-- Witness for C2: the field `cpu = 3.5` yields exactly the gauge
`sansay_cpu`. -/
theorem C2_witness :
    processSystemField ⟨"cpu", "3.5"⟩
      = [Metric.gauge ("sansay_" ++ "cpu") ("") [] [] ("3.5")] :=
  ((C2_system_stat_projection ⟨"system_stat", []⟩ rfl).2.1 ⟨"cpu", "3.5"⟩).2.1
    (by decide) (by decide) (by decide)

/-- Counterexample for C5: a row with two fields named `alias`, values
`A` then `B`, assembles to a record whose `Alias` attribute is `B`, the
value of the LAST field of that name — not `A`, the value of the first. -/
theorem C5_counterexample :
    assembleTrunk Trunk.empty [⟨"alias", "A"⟩, ⟨"alias", "B"⟩]
      = .ok ({ Trunk.empty with Alias := "B" }, [])
  ∧ ({ Trunk.empty with Alias := "B" } : Trunk).Alias ≠ "A" := by
  decide

/-- C5 as amended: when a row contains several fields with the same name,
the LAST match is authoritative — appending one more field to a row
re-runs `setField` on top of whatever the earlier fields produced, so a
later duplicate-named field overrides the earlier ones. -/
theorem C5_last_duplicate_wins (t t1 t2 : Trunk) (fs : List Field)
    (name v : String) (ms : List Metric)
    (h1 : assembleTrunk t fs = .ok (t1, ms))
    (h2 : setField t1 name v = .ok (.ok t2)) :
    assembleTrunk t (fs ++ [⟨name, v⟩]) = .ok (t2, ms) := by
  induction fs generalizing t ms with
  | nil =>
    simp only [assembleTrunk, GoR.ok.injEq, Prod.mk.injEq] at h1
    obtain ⟨ht, hms⟩ := h1
    subst ht
    subst hms
    simp only [List.nil_append, assembleTrunk]
    rw [h2]
  | cons f fs ih =>
    simp only [assembleTrunk, List.cons_append] at h1 ⊢
    cases hs : setField t f.Name f.Text with
    | panic m => simp [hs] at h1
    | ok res =>
      rw [hs] at h1
      cases res with
      | error e =>
        dsimp only at h1 ⊢
        cases ha : assembleTrunk t fs with
        | panic m =>
          rw [ha] at h1
          simp at h1
        | ok pr =>
          obtain ⟨t3, ms3⟩ := pr
          rw [ha] at h1
          dsimp only at h1
          simp only [GoR.ok.injEq, Prod.mk.injEq] at h1
          obtain ⟨ht, hms⟩ := h1
          subst ht
          subst hms
          simp only [List.append_eq]
          rw [ih t ms3 ha]
      | ok tnext =>
        dsimp only at h1 ⊢
        exact ih tnext ms h1

/-- Witness for C5: appending a second `alias` field overrides the value
the first one set. -/
theorem C5_witness :
    assembleTrunk Trunk.empty ([⟨"alias", "A"⟩] ++ [⟨"alias", "B"⟩])
      = .ok ({ Trunk.empty with Alias := "B" }, []) :=
  C5_last_duplicate_wins Trunk.empty { Trunk.empty with Alias := "A" }
    { Trunk.empty with Alias := "B" } [⟨"alias", "A"⟩] ("alias") ("B") []
    (by decide) (by decide)

/-- The `NumOrig` iteration of the trunk loop, as an `emitCounter` block. -/
lemma counterStep_numOrig (t : Trunk) :
    counterStep t ("NumOrig") = .ok (emitCounter t ("numorig", t.NumOrig)) :=
  goRIf (parseFloatOk t.NumOrig) _ _

/-- The `NumTerm` iteration of the trunk loop, as an `emitCounter` block. -/
lemma counterStep_numTerm (t : Trunk) :
    counterStep t ("NumTerm") = .ok (emitCounter t ("numterm", t.NumTerm)) :=
  goRIf (parseFloatOk t.NumTerm) _ _

/-- The `Cps` iteration of the trunk loop, as an `emitCounter` block. -/
lemma counterStep_cps (t : Trunk) :
    counterStep t ("Cps") = .ok (emitCounter t ("cps", t.Cps)) :=
  goRIf (parseFloatOk t.Cps) _ _

/-- The `NumPeak` iteration of the trunk loop, as an `emitCounter` block. -/
lemma counterStep_numPeak (t : Trunk) :
    counterStep t ("NumPeak") = .ok (emitCounter t ("numpeak", t.NumPeak)) :=
  goRIf (parseFloatOk t.NumPeak) _ _

/-- The `TotalCLZ` iteration of the trunk loop, as an `emitCounter` block. -/
lemma counterStep_totalCLZ (t : Trunk) :
    counterStep t ("TotalCLZ") = .ok (emitCounter t ("totalclz", t.TotalCLZ)) :=
  goRIf (parseFloatOk t.TotalCLZ) _ _

/-- The `NumCLZCps` iteration of the trunk loop, as an `emitCounter` block. -/
lemma counterStep_numCLZCps (t : Trunk) :
    counterStep t ("NumCLZCps") = .ok (emitCounter t ("numclzcps", t.NumCLZCps)) :=
  goRIf (parseFloatOk t.NumCLZCps) _ _

/-- The `TotalLimit` iteration of the trunk loop, as an `emitCounter` block. -/
lemma counterStep_totalLimit (t : Trunk) :
    counterStep t ("TotalLimit") = .ok (emitCounter t ("totallimit", t.TotalLimit)) :=
  goRIf (parseFloatOk t.TotalLimit) _ _

/-- The `CpsLimit` iteration of the trunk loop, as an `emitCounter` block. -/
lemma counterStep_cpsLimit (t : Trunk) :
    counterStep t ("CpsLimit") = .ok (emitCounter t ("cpslimit", t.CpsLimit)) :=
  goRIf (parseFloatOk t.CpsLimit) _ _

/-- `addTrunkMetrics` never panics: it emits exactly the concatenation of
the eight per-counter blocks, in loop order. -/
lemma addTrunkMetrics_eq (t : Trunk) :
    addTrunkMetrics t = .ok ((counterPairs t).flatMap (emitCounter t)) := by
  simp only [addTrunkMetrics, counterList, goFlatMap, counterStep_numOrig,
    counterStep_numTerm, counterStep_cps, counterStep_numPeak,
    counterStep_totalCLZ, counterStep_numCLZCps, counterStep_totalLimit,
    counterStep_cpsLimit, counterPairs, List.flatMap_cons, List.flatMap_nil,
    List.append_nil]

/-- Every metric emitted while assembling a trunk record is an invalid
`sansay_error` metric — assembly never emits gauges. -/
lemma assembleTrunk_all_invalid (fs : List Field) :
    ∀ (t t1 : Trunk) (ms : List Metric),
      assembleTrunk t fs = .ok (t1, ms) → ∀ m ∈ ms, Metric.isInvalid m = true := by
  induction fs with
  | nil =>
    intro t t1 ms h m hm
    simp only [assembleTrunk, GoR.ok.injEq, Prod.mk.injEq] at h
    obtain ⟨_, hms⟩ := h
    subst hms
    simp at hm
  | cons f fs ih =>
    intro t t1 ms h m hm
    simp only [assembleTrunk] at h
    cases hs : setField t f.Name f.Text with
    | panic mm => simp [hs] at h
    | ok res =>
      rw [hs] at h
      cases res with
      | error e =>
        dsimp only at h
        cases ha : assembleTrunk t fs with
        | panic mm =>
          rw [ha] at h
          simp at h
        | ok pr =>
          obtain ⟨t3, ms3⟩ := pr
          rw [ha] at h
          dsimp only at h
          simp only [GoR.ok.injEq, Prod.mk.injEq] at h
          obtain ⟨ht, hms⟩ := h
          subst hms
          rcases List.mem_cons.mp hm with hm1 | hm2
          · subst hm1
            rfl
          · exact ih t t3 ms3 ha m hm2
      | ok tnext =>
        dsimp only at h
        exact ih tnext t1 ms h m hm

/-- An invalid metric is not a gauge. -/
lemma isGauge_eq_false_of_isInvalid (m : Metric)
    (h : Metric.isInvalid m = true) : Metric.isGauge m = false := by
  cases m
  · simp [Metric.isInvalid] at h
  · rfl

/-- The gauges among the per-counter blocks are exactly the counters whose
value parses as a float. -/
lemma emitCounter_gauge_count (t : Trunk) (ps : List (String × String)) :
    (ps.flatMap (emitCounter t)).countP Metric.isGauge
      = ps.countP (fun p => parseFloatOk p.2) := by
  induction ps with
  | nil => rfl
  | cons p ps ih =>
    simp only [List.flatMap_cons, List.countP_append, ih, List.countP_cons]
    cases hb : parseFloatOk p.2 <;>
      simp [emitCounter, hb, Metric.isGauge, errMetric]
    all_goals omega

/-- The invalid metrics among the per-counter blocks are exactly the
counters whose value fails to parse: one block of exactly one metric per
counter. -/
lemma emitCounter_invalid_count (t : Trunk) (ps : List (String × String)) :
    (ps.flatMap (emitCounter t)).countP Metric.isInvalid
      = ps.length - ps.countP (fun p => parseFloatOk p.2) := by
  induction ps with
  | nil => rfl
  | cons p ps ih =>
    have hle : ps.countP (fun p => parseFloatOk p.2) ≤ ps.length :=
      List.countP_le_length _
    simp only [List.flatMap_cons, List.countP_append, ih, List.countP_cons,
      List.length_cons]
    cases hb : parseFloatOk p.2 <;>
      simp [emitCounter, hb, Metric.isInvalid, errMetric]
    all_goals omega

/-- C1: for every trunk-table row that assembles to record `t` with
assembly error metrics `ms`: the assembly metrics contain no gauge; a row
whose `Fqdn` is not `Group` emits only `ms`; a row whose `Fqdn` is
`Group` additionally emits one block per counter, in order — a gauge
named `sansay_trunk_<counter lower-cased>` labeled with the trunk
identifier and alias when the counter parses as a 64-bit float, one
`sansay_error` invalid metric instead when it does not, the remaining
counters still being attempted — which gives exactly eight gauges when
all eight counters parse. -/
theorem C1_trunk_row_projection (row : Row) (t : Trunk) (ms : List Metric)
    (h : assembleTrunk Trunk.empty row.Field = .ok (t, ms)) :
    (ms.countP Metric.isGauge = 0)
  ∧ (t.Fqdn ≠ "Group" → processTrunkRow row = .ok ms)
  ∧ (t.Fqdn = "Group" →
        (processTrunkRow row
          = .ok (ms ++ (counterPairs t).flatMap (emitCounter t)))
      ∧ ((counterPairs t).flatMap (emitCounter t)).countP Metric.isGauge
          = (counterPairs t).countP (fun p => parseFloatOk p.2)
      ∧ ((counterPairs t).flatMap (emitCounter t)).countP Metric.isInvalid
          = 8 - (counterPairs t).countP (fun p => parseFloatOk p.2)
      ∧ ((∀ p ∈ counterPairs t, parseFloatOk p.2 = true) →
          (counterPairs t).flatMap (emitCounter t)
            = [Metric.gauge ("sansay_trunk_" ++ "numorig") ("")
                 (["trunkgroup", "alias"]) ([t.TrunkId, t.Alias]) t.NumOrig,
               Metric.gauge ("sansay_trunk_" ++ "numterm") ("")
                 (["trunkgroup", "alias"]) ([t.TrunkId, t.Alias]) t.NumTerm,
               Metric.gauge ("sansay_trunk_" ++ "cps") ("")
                 (["trunkgroup", "alias"]) ([t.TrunkId, t.Alias]) t.Cps,
               Metric.gauge ("sansay_trunk_" ++ "numpeak") ("")
                 (["trunkgroup", "alias"]) ([t.TrunkId, t.Alias]) t.NumPeak,
               Metric.gauge ("sansay_trunk_" ++ "totalclz") ("")
                 (["trunkgroup", "alias"]) ([t.TrunkId, t.Alias]) t.TotalCLZ,
               Metric.gauge ("sansay_trunk_" ++ "numclzcps") ("")
                 (["trunkgroup", "alias"]) ([t.TrunkId, t.Alias]) t.NumCLZCps,
               Metric.gauge ("sansay_trunk_" ++ "totallimit") ("")
                 (["trunkgroup", "alias"]) ([t.TrunkId, t.Alias]) t.TotalLimit,
               Metric.gauge ("sansay_trunk_" ++ "cpslimit") ("")
                 (["trunkgroup", "alias"]) ([t.TrunkId, t.Alias]) t.CpsLimit])) := by
  refine ⟨?_, ?_, ?_⟩
  · rw [List.countP_eq_zero]
    intro m hm
    have hinv := assembleTrunk_all_invalid row.Field Trunk.empty t ms h m hm
    simp [isGauge_eq_false_of_isInvalid m hinv]
  · intro hf
    unfold processTrunkRow
    rw [h]
    dsimp only
    rw [if_neg hf]
  · intro hf
    refine ⟨?_, emitCounter_gauge_count t (counterPairs t),
      emitCounter_invalid_count t (counterPairs t), ?_⟩
    · unfold processTrunkRow
      rw [h]
      dsimp only
      rw [if_pos hf, addTrunkMetrics_eq]
    · intro hall
      have h1 := hall ("numorig", t.NumOrig) (by simp [counterPairs])
      have h2 := hall ("numterm", t.NumTerm) (by simp [counterPairs])
      have h3 := hall ("cps", t.Cps) (by simp [counterPairs])
      have h4 := hall ("numpeak", t.NumPeak) (by simp [counterPairs])
      have h5 := hall ("totalclz", t.TotalCLZ) (by simp [counterPairs])
      have h6 := hall ("numclzcps", t.NumCLZCps) (by simp [counterPairs])
      have h7 := hall ("totallimit", t.TotalLimit) (by simp [counterPairs])
      have h8 := hall ("cpslimit", t.CpsLimit) (by simp [counterPairs])
      simp only [counterPairs, List.flatMap_cons, List.flatMap_nil,
        List.append_nil, emitCounter, h1, h2, h3, h4, h5, h6, h7, h8,
        if_true]
      rfl

/-- Witness for C1: a `Group` row with all eight counters numeric emits
all eight trunk gauges after its (empty) assembly error list. -/
theorem C1_witness :
    processTrunkRow ⟨[⟨"trunkId", "T1"⟩, ⟨"alias", "A1"⟩, ⟨"fqdn", "Group"⟩,
        ⟨"numOrig", "10"⟩, ⟨"numTerm", "1"⟩, ⟨"cps", "2"⟩, ⟨"numPeak", "3"⟩,
        ⟨"totalCLZ", "4"⟩, ⟨"numCLZCps", "5"⟩, ⟨"totalLimit", "6"⟩,
        ⟨"cpsLimit", "7"⟩]⟩
      = .ok ([] ++
          (counterPairs ⟨"T1", "A1", "Group", "10", "1", "2", "3", "4", "5", "6", "7"⟩).flatMap
            (emitCounter ⟨"T1", "A1", "Group", "10", "1", "2", "3", "4", "5", "6", "7"⟩)) :=
  ((C1_trunk_row_projection
      ⟨[⟨"trunkId", "T1"⟩, ⟨"alias", "A1"⟩, ⟨"fqdn", "Group"⟩,
        ⟨"numOrig", "10"⟩, ⟨"numTerm", "1"⟩, ⟨"cps", "2"⟩, ⟨"numPeak", "3"⟩,
        ⟨"totalCLZ", "4"⟩, ⟨"numCLZCps", "5"⟩, ⟨"totalLimit", "6"⟩,
        ⟨"cpsLimit", "7"⟩]⟩
      ⟨"T1", "A1", "Group", "10", "1", "2", "3", "4", "5", "6", "7"⟩ []
      (by decide)).2.2 rfl).1

/-- An invalid metric is never the scrape-duration gauge. -/
lemma isDurationGauge_false_of_invalid (m : Metric)
    (h : Metric.isInvalid m = true) : isDurationGauge m = false := by
  cases m
  · simp [Metric.isInvalid] at h
  · rfl

/-- A gauge with empty help is never the scrape-duration gauge, whose
help string is nonempty. -/
lemma isDurationGauge_false_of_help_empty (n : String) (ln lv : List String)
    (v : String) : isDurationGauge (Metric.gauge n ("") ln lv v) = false := by
  have h : (("" : String) == durationHelp) = false := by decide
  simp [isDurationGauge, h]

/-- No `system_stat` field emits the scrape-duration gauge. -/
lemma processSystemField_not_duration (f : Field) :
    ∀ m ∈ processSystemField f, isDurationGauge m = false := by
  intro m hm
  unfold processSystemField at hm
  split at hm
  · simp at hm
  · simp at hm
  · unfold addMetric at hm
    split at hm
    · simp at hm
      subst hm
      exact isDurationGauge_false_of_help_empty _ _ _ _
    · simp at hm

/-- No per-counter block emits the scrape-duration gauge. -/
lemma emitCounter_not_duration (t : Trunk) (p : String × String) :
    ∀ m ∈ emitCounter t p, isDurationGauge m = false := by
  intro m hm
  unfold emitCounter at hm
  split at hm
  · simp at hm
    subst hm
    exact isDurationGauge_false_of_help_empty _ _ _ _
  · simp at hm
    subst hm
    rfl

/-- No trunk row emits the scrape-duration gauge. -/
lemma processTrunkRow_not_duration (row : Row) (ms : List Metric)
    (h : processTrunkRow row = .ok ms) :
    ∀ m ∈ ms, isDurationGauge m = false := by
  intro m hm
  unfold processTrunkRow at h
  cases ha : assembleTrunk Trunk.empty row.Field with
  | panic mm =>
    rw [ha] at h
    simp at h
  | ok pr =>
    obtain ⟨t, ms1⟩ := pr
    rw [ha] at h
    dsimp only at h
    by_cases hf : t.Fqdn = "Group"
    · rw [if_pos hf, addTrunkMetrics_eq] at h
      dsimp only at h
      simp only [GoR.ok.injEq] at h
      subst h
      rcases List.mem_append.mp hm with hm1 | hm2
      · exact isDurationGauge_false_of_invalid m
          (assembleTrunk_all_invalid row.Field Trunk.empty t ms1 ha m hm1)
      · obtain ⟨p, _, hmp⟩ := List.mem_flatMap.mp hm2
        exact emitCounter_not_duration t p m hmp
    · rw [if_neg hf] at h
      simp only [GoR.ok.injEq] at h
      subst h
      exact isDurationGauge_false_of_invalid m
        (assembleTrunk_all_invalid row.Field Trunk.empty t ms1 ha m hm)

/-- A per-element property of emitted metrics is preserved by the
panic-capable loop. -/
lemma goFlatMap_all {α : Type} (f : α → GoR (List Metric)) (P : Metric → Prop)
    (hf : ∀ a ms, f a = .ok ms → ∀ m ∈ ms, P m) :
    ∀ (l : List α) (ms : List Metric),
      goFlatMap f l = .ok ms → ∀ m ∈ ms, P m := by
  intro l
  induction l with
  | nil =>
    intro ms h m hm
    simp only [goFlatMap, GoR.ok.injEq] at h
    subst h
    simp at hm
  | cons a as ih =>
    intro ms h m hm
    simp only [goFlatMap] at h
    cases h1 : f a with
    | panic mm =>
      rw [h1] at h
      simp at h
    | ok ms1 =>
      rw [h1] at h
      dsimp only at h
      cases h2 : goFlatMap f as with
      | panic mm =>
        rw [h2] at h
        simp at h
      | ok ms2 =>
        rw [h2] at h
        dsimp only at h
        simp only [GoR.ok.injEq] at h
        subst h
        rcases List.mem_append.mp hm with hm1 | hm2
        · exact hf a ms1 h1 m hm1
        · exact ih ms2 h2 m hm2

/-- No table ever emits the scrape-duration gauge: it is emitted only by
the final step of `Collect`. -/
lemma processTable_not_duration (tbl : Table) (ms : List Metric)
    (h : processTable tbl = .ok ms) :
    ∀ m ∈ ms, isDurationGauge m = false := by
  intro m hm
  unfold processTable at h
  split at h
  · simp only [GoR.ok.injEq] at h
    subst h
    simp only [List.mem_flatMap] at hm
    obtain ⟨r, _, f, _, hmf⟩ := hm
    exact processSystemField_not_duration f m hmf
  · exact goFlatMap_all processTrunkRow (fun m => isDurationGauge m = false)
      (fun row ms2 h2 => processTrunkRow_not_duration row ms2 h2)
      tbl.Row ms h m hm
  · simp only [GoR.ok.injEq] at h
    subst h
    simp at hm

/-- Counterexample for C6: a document whose fetch and XML parse both
succeed but whose trunk table contains a field with an empty name makes
`collect` panic inside `setField`, so that cycle emits no
`sansay_scrape_duration_seconds` gauge at all. -/
theorem C6_counterexample :
    collect (.ok ⟨⟨"sansay", [⟨"XBResourceRealTimeStatList", [⟨[⟨"", "1"⟩]⟩]⟩]⟩⟩)
        ("0.01")
      = .panic indexOutOfRangeMsg := by
  decide

/-- C6 as amended: whenever fetch and parse succeed AND table processing
completes without panicking (no trunk-table field has an empty name),
`collect` emits the duration gauge exactly once, as the last metric of
the cycle, regardless of how many per-field or per-counter errors were
emitted during projection. -/
theorem C6_duration_gauge (sansay : Sansay) (d : String) (ms : List Metric)
    (h : goFlatMap processTable sansay.Database.Table = .ok ms) :
    collect (.ok sansay) d = .ok (ms ++ [durationGauge d])
  ∧ (ms ++ [durationGauge d]).countP isDurationGauge = 1
  ∧ (ms ++ [durationGauge d]).getLast? = some (durationGauge d) := by
  refine ⟨?_, ?_, ?_⟩
  · unfold collect
    dsimp only
    rw [h]
  · rw [List.countP_append]
    have h0 : ms.countP isDurationGauge = 0 := by
      rw [List.countP_eq_zero]
      intro m hm
      have hd := goFlatMap_all processTable (fun m => isDurationGauge m = false)
        (fun tbl ms2 h2 => processTable_not_duration tbl ms2 h2)
        sansay.Database.Table ms h m hm
      simp [hd]
    have h1 : isDurationGauge (durationGauge d) = true := by
      simp [isDurationGauge, durationGauge]
    rw [h0]
    simp [List.countP_cons, h1]
  · exact List.getLast?_concat _

/-- Witness for C6: a one-table document yields its gauge followed by the
duration gauge, which is last. -/
theorem C6_witness :
    collect (.ok ⟨⟨"sansay", [⟨"system_stat", [⟨[⟨"cpu", "3.5"⟩]⟩]⟩]⟩⟩) ("0.02")
      = .ok ([Metric.gauge ("sansay_" ++ "cpu") ("") [] [] ("3.5")]
          ++ [durationGauge ("0.02")]) :=
  (C6_duration_gauge ⟨⟨"sansay", [⟨"system_stat", [⟨[⟨"cpu", "3.5"⟩]⟩]⟩]⟩⟩
      ("0.02") [Metric.gauge ("sansay_" ++ "cpu") ("") [] [] ("3.5")]
      (by decide)).1

/-- `assignCap` at the exported name of attribute `a` assigns exactly
attribute `a` and leaves every other attribute unchanged. -/
lemma assignCap_frame (t : Trunk) (a : TrunkAttr) (v : String) (t2 : Trunk)
    (h : assignCap t (attrName a) v = .ok t2) :
    getAttr t2 a = v ∧ ∀ b : TrunkAttr, b ≠ a → getAttr t2 b = getAttr t b := by
  cases a <;>
    (simp only [attrName, assignCap, Except.ok.injEq] at h
     subst h
     refine ⟨rfl, ?_⟩
     intro b hb
     cases b <;> first | exact absurd rfl hb | rfl)

/-- C10: when `setField` succeeds on a trunk record, it assigns exactly
the one string attribute whose name is the field name with its first
character capitalized, leaving every other attribute unchanged; and
`getField`, in state-passing form, returns the record unchanged. -/
theorem C10_field_mapper_frame (t : Trunk) (name v : String) (t2 : Trunk)
    (a : TrunkAttr) (hc : capitalize name = .ok (attrName a))
    (h : setField t name v = .ok (.ok t2)) :
    (getAttr t2 a = v ∧ ∀ b : TrunkAttr, b ≠ a → getAttr t2 b = getAttr t b)
  ∧ (∀ (t3 : Trunk) (n2 : String) (r : Except String String × Trunk),
      getFieldSt t3 n2 = .ok r → r.2 = t3) := by
  constructor
  · unfold setField at h
    rw [hc] at h
    dsimp only at h
    simp only [GoR.ok.injEq] at h
    exact assignCap_frame t a v t2 h
  · intro t3 n2 r hr
    unfold getFieldSt at hr
    cases hcap : capitalize n2 with
    | panic mm =>
      rw [hcap] at hr
      simp at hr
    | ok nn =>
      rw [hcap] at hr
      dsimp only at hr
      simp only [GoR.ok.injEq] at hr
      subst hr
      rfl

/-- Witness for C10: setting `numOrig` to `42` on the empty record gives
a record whose `NumOrig` attribute reads back `42`. -/
theorem C10_witness :
    getAttr { Trunk.empty with NumOrig := "42" } TrunkAttr.numOrig = "42" :=
  (C10_field_mapper_frame Trunk.empty ("numOrig") ("42")
      { Trunk.empty with NumOrig := "42" } TrunkAttr.numOrig
      (by decide) (by decide)).1.1

end Collector
